import Mathlib

/-!
Shallow embedding of the Freqtrade GUI manager (`KQ.py`) for verification.

Python strings are modelled as `List Char` (for the token-level text
transforms) or Lean `String` (a wrapper around `List Char`).  The pieces
embedded here are:

* `process_pairs` — `BacktestWindow.process_pairs`, the pure pair normalizer;
* `dockerWorkerRun` — the event trace of `DockerWorker.run`;
* `dockerMonitorStep` / `dockerMonitorRun` — one iteration / a finite prefix
  of iterations of `DockerMonitor.run`;
* `update_json`, `toggle_dry`, `save_port` — the config-editing flows of
  `FreqtradeManager`, over a JSON value model with failure injection for
  file reads and writes.
-/

/-- ASCII whitespace as recognised by Python's `str.split()` / `str.strip()`
(space, tab, newline, carriage return, vertical tab, form feed). -/
def pyIsSpace (c : Char) : Bool :=
  c = ' ' || c = '\t' || c = '\n' || c = '\r' || c = '\x0b' || c = '\x0c'

/-- Python `str.strip()`: drop leading and trailing whitespace. -/
def pyStrip (l : List Char) : List Char :=
  ((l.dropWhile pyIsSpace).reverse.dropWhile pyIsSpace).reverse

/-- Python `str.isdigit()` (restricted to ASCII digits, which is the relevant
range for port numbers): nonempty and every character a digit. -/
def pyIsDigitL (l : List Char) : Bool :=
  !l.isEmpty && l.all (fun c => c.isDigit)

/-- Accumulator worker for `pyWords`: `cur` holds the characters of the word
currently being scanned, in reverse order. -/
def pyWordsAux (cur : List Char) : List Char → List (List Char)
  | [] => if cur.isEmpty then [] else [cur.reverse]
  | c :: cs =>
    if pyIsSpace c then
      if cur.isEmpty then pyWordsAux [] cs else cur.reverse :: pyWordsAux [] cs
    else pyWordsAux (c :: cur) cs

/-- Python `str.split()` with no argument: split on runs of whitespace,
producing no empty tokens. -/
def pyWords (l : List Char) : List (List Char) :=
  pyWordsAux [] l

/-- Python `" ".join(tokens)`. -/
def joinT : List (List Char) → List Char
  | [] => []
  | [t] => t
  | t :: t' :: ts => t ++ ' ' :: joinT (t' :: ts)

/-- The per-token body of `BacktestWindow.process_pairs`: when the token has
no "/" append "/USDT", then in futures mode when it has no ":" append
":USDT". -/
def processTokenL (is_futures : Bool) (p : List Char) : List Char :=
  let p1 := if p.contains '/' then p else p ++ ("/USDT").data
  if is_futures && !p1.contains ':' then p1 ++ (":USDT").data else p1

/-- Function `BacktestWindow.process_pairs`: `if not raw_pairs: return ""`, split the
raw string on whitespace, rewrite each token, join with single spaces. -/
def process_pairs (is_futures : Bool) (raw_pairs : String) : String :=
  if raw_pairs = "" then ""
  else ⟨joinT ((pyWords raw_pairs.data).map (processTokenL is_futures))⟩

/-! ## JSON value model

`json.load` yields nested Python values; objects are insertion-ordered
dictionaries, modelled as association lists with unique-key update. -/

inductive JValue where
  | null
  | bool (b : Bool)
  | num (n : Int)
  | str (s : String)
  | arr (elems : List JValue)
  | obj (entries : List (String × JValue))

/-- Python `d[k]` for a dict: the value at the first matching key. -/
def lookup : List (String × JValue) → String → Option JValue
  | [], _ => none
  | (k', v) :: rest, k => if k' = k then some v else lookup rest k

/-- Python `d[k] = v` for a dict: replace in place if the key is present,
append at the end otherwise (dict insertion order). -/
def setKey : List (String × JValue) → String → JValue → List (String × JValue)
  | [], k, v => [(k, v)]
  | (k', v') :: rest, k, v =>
    if k' = k then (k, v) :: rest else (k', v') :: setKey rest k v

/-- Lookup along a path of object keys. -/
def getPath : JValue → List String → Option JValue
  | v, [] => some v
  | JValue.obj kvs, k :: ks =>
    match lookup kvs k with
    | some v => getPath v ks
    | none => none
  | _, _ :: _ => none

/-! ## Config-editing flows of `FreqtradeManager`

The config file state is `Option JValue`: `none` means opening/parsing the
file raises (missing file, invalid JSON).  `writeOk = false` injects a
failure into the write; the failing write is modelled as leaving the file
unchanged.  Each flow returns the new file state, the dialogs shown (in
order), and the trace of file operations attempted. -/

structure FConfig where
  file : Option JValue
  writeOk : Bool

inductive DKind where
  | info
  | warning
  | critical
deriving DecidableEq

structure Dialog where
  kind : DKind
  text : String
deriving DecidableEq

inductive FOp where
  | read (ok : Bool)
  | write (d : JValue) (ok : Bool)

/-- Whether a file operation raised. -/
def opFailed : FOp → Bool
  | FOp.read ok => !ok
  | FOp.write _ ok => !ok

/-- No operation follows a failed one in the trace. -/
def failureStops : List FOp → Bool
  | [] => true
  | op :: rest => if opFailed op then rest.isEmpty else failureStops rest

inductive Reply where
  | yes
  | no
deriving DecidableEq

/-- Function `FreqtradeManager.update_json`: read the config, set a top-level key,
rewrite the whole file; any exception is caught and `False` returned.
A non-object top level makes `d[k] = v` raise (caught). -/
def update_json (cfg : FConfig) (k : String) (v : JValue) :
    FConfig × Bool × List FOp :=
  match cfg.file with
  | none => (cfg, false, [FOp.read false])
  | some d =>
    match d with
    | JValue.obj kvs =>
      let d' := JValue.obj (setKey kvs k v)
      if cfg.writeOk then
        (FConfig.mk (some d') cfg.writeOk, true, [FOp.read true, FOp.write d' true])
      else (cfg, false, [FOp.read true, FOp.write d' false])
    | _ => (cfg, false, [FOp.read true])

/-- The text of the information dialog `toggle_dry` always shows. -/
def infoSwitchText (chk : Bool) : String :=
  "已切换为 " ++ (if chk then "模拟盘" else "实盘") ++ "，请点击【重启生效】。"

/-- The text of the live-trading warning dialog. -/
def warnLiveText : String :=
  "🛑 切换到【实盘 (Live)】模式资金将面临风险！\n确定要继续吗？"

/-- Function `FreqtradeManager.toggle_dry`: unchecking first shows a warning; on
`No` the checkbox is set back to checked, which re-fires the toggled signal
synchronously and runs the `chk = True` path.  In every path `update_json`
is called with its result ignored and the information dialog is shown. -/
def toggle_dry (cfg : FConfig) (chk : Bool) (reply : Reply) :
    FConfig × List Dialog × List FOp :=
  if chk then
    let r := update_json cfg "dry_run" (JValue.bool true)
    (r.1, [Dialog.mk DKind.info (infoSwitchText true)], r.2.2)
  else if reply = Reply.no then
    let r := update_json cfg "dry_run" (JValue.bool true)
    (r.1, [Dialog.mk DKind.warning warnLiveText,
           Dialog.mk DKind.info (infoSwitchText true)], r.2.2)
  else
    let r := update_json cfg "dry_run" (JValue.bool false)
    (r.1, [Dialog.mk DKind.warning warnLiveText,
           Dialog.mk DKind.info (infoSwitchText false)], r.2.2)

/-- The proxy URL `save_port` builds from the stripped port text. -/
def proxyStr (portText : String) : String :=
  "http://host.docker.internal:" ++ ⟨pyStrip portText.data⟩

/-- The in-memory mutation `save_port` performs between read and write:
ensure `exchange` and `exchange.ccxt_config` are present (creating `{}` and
`{"enableRateLimit": true}` respectively when absent), then overwrite
`proxies`.  `none` models the `TypeError` raised (and caught) when the top
level or an intermediate value is not a dict. -/
def save_port_update (d : JValue) (proxy : String) : Option JValue :=
  match d with
  | JValue.obj kvs =>
    let ek? : Option (List (String × JValue)) :=
      match lookup kvs "exchange" with
      | none => some []
      | some (JValue.obj ekvs) => some ekvs
      | some _ => none
    match ek? with
    | none => none
    | some ekvs =>
      let ck? : Option (List (String × JValue)) :=
        match lookup ekvs "ccxt_config" with
        | none => some [("enableRateLimit", JValue.bool true)]
        | some (JValue.obj ckvs) => some ckvs
        | some _ => none
      match ck? with
      | none => none
      | some ckvs =>
        let proxies := JValue.obj [("http", JValue.str proxy), ("https", JValue.str proxy)]
        let ekvs' := setKey ekvs "ccxt_config" (JValue.obj (setKey ckvs "proxies" proxies))
        some (JValue.obj (setKey kvs "exchange" (JValue.obj ekvs')))
  | _ => none

/-- Function `FreqtradeManager.save_port`: strip the port text; a non-digit port is a
silent no-op; otherwise read the config, apply `save_port_update`, write and
show an information dialog on success, or catch the exception and show a
critical dialog (its text, `str(e)`, abstracted here). -/
def save_port (cfg : FConfig) (portText : String) :
    FConfig × List Dialog × List FOp :=
  let port := pyStrip portText.data
  if !pyIsDigitL port then (cfg, [], [])
  else
    match cfg.file with
    | none => (cfg, [Dialog.mk DKind.critical "read error"], [FOp.read false])
    | some d =>
      match save_port_update d (proxyStr portText) with
      | none => (cfg, [Dialog.mk DKind.critical "type error"], [FOp.read true])
      | some d' =>
        if cfg.writeOk then
          (FConfig.mk (some d') cfg.writeOk,
           [Dialog.mk DKind.info "端口已保存，请点击【重启生效】。"],
           [FOp.read true, FOp.write d' true])
        else
          (cfg, [Dialog.mk DKind.critical "write error"],
           [FOp.read true, FOp.write d' false])

/-! ## `DockerWorker.run` as an event trace

The signals a run emits, in order.  The subprocess interaction inside the
`try` block either fails at `Popen`, or streams a list of lines (possibly
interrupted by an exception after some of them). -/

inductive WEvent where
  | log (s : String)
  | finish
deriving DecidableEq

inductive ProcOutcome where
  | launchFail (err : String)
  | streamed (lines : List String) (err : Option String)

/-- Ruler string, `'='*40`, used in the log messages. -/
def ruler : String :=
  ⟨List.replicate 40 '='⟩

/-- The first `log_signal` emission of `DockerWorker.run`. -/
def headerMsg (cmd : String) : String :=
  "🚀 执行命令:\n" ++ cmd ++ "\n" ++ ruler ++ "\n"

/-- The `log_signal` emission of the `except` branch. -/
def errorMsg (e : String) : String :=
  "❌ 发生错误: " ++ e

/-- The final `log_signal` emission of a completed run. -/
def doneMsg : String :=
  "\n" ++ ruler ++ "\n✅ 任务结束"

/-- Python `line.strip()` on a `String`. -/
def stripStr (s : String) : String :=
  ⟨pyStrip s.data⟩

/-- The sequence of signals `DockerWorker.run` emits for a given subprocess
outcome: the header, one log per nonempty line read (stripped, empty reads
skipped by `if line:`), then either the completion banner or the caught
error, and — from the `finally` block — the terminal `finish_signal`. -/
def dockerWorkerRun (cmd : String) (o : ProcOutcome) : List WEvent :=
  match o with
  | ProcOutcome.launchFail e =>
    [WEvent.log (headerMsg cmd), WEvent.log (errorMsg e), WEvent.finish]
  | ProcOutcome.streamed lines err =>
    let body := lines.filterMap fun l =>
      if l = "" then none else some (WEvent.log (stripStr l))
    match err with
    | none =>
      (WEvent.log (headerMsg cmd) :: body ++ [WEvent.log doneMsg]) ++ [WEvent.finish]
    | some e =>
      (WEvent.log (headerMsg cmd) :: body ++ [WEvent.log (errorMsg e)]) ++ [WEvent.finish]

/-! ## `DockerMonitor.run`

Each iteration runs the `docker compose ps` query and emits one boolean
status signal; the query outcome is `some stdout` on success and `none`
when it raises. -/

/-- One iteration of the poll loop: `bool(result.stdout.strip())` on
success, `False` from the bare `except` on failure. -/
def dockerMonitorStep (q : Option String) : Bool :=
  match q with
  | some out => !(pyStrip out.data).isEmpty
  | none => false

/-- A finite prefix of the infinite poll loop: one emission per iteration. -/
def dockerMonitorRun (qs : List (Option String)) : List Bool :=
  qs.map dockerMonitorStep

/-! ## Helper lemmas -/

theorem contains_append (l1 l2 : List Char) (c : Char) :
    (l1 ++ l2).contains c = (l1.contains c || l2.contains c) := by
  induction l1 with
  | nil => simp
  | cons a l ih => simp [List.contains_cons, ih, Bool.or_assoc]

theorem processTokenL_cases (fut : Bool) (t : List Char) :
    processTokenL fut t = t ∨
    processTokenL fut t = t ++ ("/USDT").data ∨
    processTokenL fut t = t ++ (":USDT").data ∨
    processTokenL fut t = t ++ (("/USDT").data ++ (":USDT").data) := by
  by_cases hsl : '/' ∈ t <;> simp [processTokenL, hsl] <;> split <;> simp <;> tauto

theorem processTokenL_keeps (fut : Bool) (t : List Char)
    (h1 : t ≠ []) (h2 : ∀ c ∈ t, pyIsSpace c = false) :
    processTokenL fut t ≠ [] ∧ ∀ c ∈ processTokenL fut t, pyIsSpace c = false := by
  have hq : ∀ c ∈ ("/USDT").data, pyIsSpace c = false := by decide
  have hs : ∀ c ∈ (":USDT").data, pyIsSpace c = false := by decide
  have happ : ∀ u : List Char, (∀ c ∈ u, pyIsSpace c = false) →
      (t ++ u ≠ [] ∧ ∀ c ∈ t ++ u, pyIsSpace c = false) := by
    intro u hu
    refine ⟨by simp [h1], ?_⟩
    intro c hc
    rcases List.mem_append.mp hc with hc | hc
    · exact h2 c hc
    · exact hu c hc
  rcases processTokenL_cases fut t with h | h | h | h <;> rw [h]
  · exact ⟨h1, h2⟩
  · exact happ _ hq
  · exact happ _ hs
  · refine happ _ ?_
    intro c hc
    rcases List.mem_append.mp hc with hc | hc
    · exact hq c hc
    · exact hs c hc

theorem processTokenL_has_slash (fut : Bool) (t : List Char) :
    '/' ∈ processTokenL fut t := by
  by_cases hsl : '/' ∈ t <;> by_cases hco : ':' ∈ t <;> cases fut <;>
    simp [processTokenL, hsl, hco]

theorem processTokenL_has_colon (t : List Char) :
    ':' ∈ processTokenL true t := by
  by_cases hsl : '/' ∈ t <;> by_cases hco : ':' ∈ t <;>
    simp [processTokenL, hsl, hco]

theorem processTokenL_idem (fut : Bool) (t : List Char) :
    processTokenL fut (processTokenL fut t) = processTokenL fut t := by
  have hsl := processTokenL_has_slash fut t
  cases fut with
  | false =>
    conv_lhs => rw [processTokenL]
    simp [hsl]
  | true =>
    have hco := processTokenL_has_colon t
    conv_lhs => rw [processTokenL]
    simp [hsl, hco]

theorem pyWordsAux_shift (t : List Char) (cur r : List Char)
    (ht : ∀ c ∈ t, pyIsSpace c = false) :
    pyWordsAux cur (t ++ r) = pyWordsAux (t.reverse ++ cur) r := by
  induction t generalizing cur with
  | nil => simp
  | cons c t ih =>
    have hc : pyIsSpace c = false := ht c (List.mem_cons_self c t)
    have ht' : ∀ d ∈ t, pyIsSpace d = false := fun d hd => ht d (List.mem_cons_of_mem c hd)
    rw [List.cons_append]
    show (if pyIsSpace c then _ else pyWordsAux (c :: cur) (t ++ r)) = _
    rw [if_neg (by simp [hc])]
    rw [ih (c :: cur) ht']
    simp

theorem pyWords_tokens_aux (l : List Char) :
    ∀ cur, (∀ c ∈ cur, pyIsSpace c = false) →
      ∀ t ∈ pyWordsAux cur l, t ≠ [] ∧ ∀ c ∈ t, pyIsSpace c = false := by
  induction l with
  | nil =>
    intro cur hcur t ht
    by_cases hc : cur.isEmpty
    · simp [pyWordsAux, hc] at ht
    · simp [pyWordsAux, hc] at ht
      subst ht
      refine ⟨by simpa [List.isEmpty_iff] using hc, ?_⟩
      intro c hcm
      exact hcur c (List.mem_reverse.mp hcm)
  | cons c cs ih =>
    intro cur hcur t ht
    by_cases hsp : pyIsSpace c
    · by_cases hc : cur.isEmpty
      · simp only [pyWordsAux, hsp, if_true, hc] at ht
        exact ih [] (by simp) t ht
      · simp [pyWordsAux, hsp, hc] at ht
        rcases ht with ht | ht
        · subst ht
          refine ⟨by simpa [List.isEmpty_iff] using hc, ?_⟩
          intro d hdm
          exact hcur d (List.mem_reverse.mp hdm)
        · exact ih [] (by simp) t ht
    · simp only [pyWordsAux, hsp, if_false] at ht
      refine ih (c :: cur) ?_ t ht
      intro d hd
      rcases List.mem_cons.mp hd with hd | hd
      · subst hd; simpa using hsp
      · exact hcur d hd

theorem pyWords_join (ts : List (List Char))
    (h : ∀ t ∈ ts, t ≠ [] ∧ ∀ c ∈ t, pyIsSpace c = false) :
    pyWords (joinT ts) = ts := by
  induction ts with
  | nil => rfl
  | cons t ts ih =>
    have hht := h t (List.mem_cons_self t ts)
    have hrest : ∀ u ∈ ts, u ≠ [] ∧ ∀ c ∈ u, pyIsSpace c = false :=
      fun u hu => h u (List.mem_cons_of_mem t hu)
    cases ts with
    | nil =>
      show pyWordsAux [] t = [t]
      have hsh := pyWordsAux_shift t [] [] hht.2
      rw [List.append_nil] at hsh
      rw [hsh]
      simp only [pyWordsAux, List.append_nil]
      rw [if_neg (by simp [List.isEmpty_iff, hht.1])]
      simp
    | cons t' ts' =>
      show pyWordsAux [] (t ++ ' ' :: joinT (t' :: ts')) = t :: t' :: ts'
      rw [pyWordsAux_shift t [] (' ' :: joinT (t' :: ts')) hht.2]
      rw [List.append_nil]
      show (if pyIsSpace ' ' then _ else _) = _
      rw [if_pos (by decide)]
      rw [if_neg (by simp [List.isEmpty_iff, hht.1])]
      rw [List.reverse_reverse]
      exact congrArg (t :: ·) (ih hrest)

theorem joinT_ne_nil (t : List Char) (ts : List (List Char)) (h : t ≠ []) :
    joinT (t :: ts) ≠ [] := by
  cases ts <;> simp [joinT, h]

theorem process_pairs_idem (fut : Bool) (raw : String) :
    process_pairs fut (process_pairs fut raw) = process_pairs fut raw := by
  by_cases hraw : raw = ""
  · subst hraw
    rfl
  · have htoks : ∀ u ∈ (pyWords raw.data).map (processTokenL fut),
        u ≠ [] ∧ ∀ c ∈ u, pyIsSpace c = false := by
      intro u hu
      rcases List.mem_map.mp hu with ⟨w, hw, rfl⟩
      have hw' := pyWords_tokens_aux raw.data [] (by simp) w hw
      exact processTokenL_keeps fut w hw'.1 hw'.2
    have hinner : process_pairs fut raw
        = (⟨joinT ((pyWords raw.data).map (processTokenL fut))⟩ : String) := by
      rw [process_pairs, if_neg hraw]
    rw [hinner]
    cases hcase : (pyWords raw.data).map (processTokenL fut) with
    | nil => rfl
    | cons t rest =>
      have htoks' : ∀ u ∈ t :: rest, u ≠ [] ∧ ∀ c ∈ u, pyIsSpace c = false := by
        rw [← hcase]
        exact htoks
      have hne : (⟨joinT (t :: rest)⟩ : String) ≠ "" := fun he =>
        joinT_ne_nil t rest (htoks' t (List.mem_cons_self t rest)).1 (congrArg String.data he)
      rw [process_pairs, if_neg hne]
      have hdata : (⟨joinT (t :: rest)⟩ : String).data = joinT (t :: rest) := rfl
      rw [hdata, pyWords_join (t :: rest) htoks']
      have hmap : (t :: rest).map (processTokenL fut) = t :: rest := by
        rw [← hcase, List.map_map]
        exact List.map_congr_left fun a _ => processTokenL_idem fut a
      rw [hmap]

theorem lookup_setKey_self (l : List (String × JValue)) (k : String) (v : JValue) :
    lookup (setKey l k v) k = some v := by
  induction l with
  | nil => simp [setKey, lookup]
  | cons kv rest ih =>
    obtain ⟨k', v'⟩ := kv
    by_cases h : k' = k
    · simp [setKey, lookup, h]
    · simp [setKey, lookup, h, ih]

theorem lookup_setKey_ne (l : List (String × JValue)) (k k' : String) (v : JValue)
    (h : k' ≠ k) :
    lookup (setKey l k v) k' = lookup l k' := by
  have h2 : k ≠ k' := Ne.symm h
  induction l with
  | nil => simp [setKey, lookup, h2]
  | cons kv rest ih =>
    obtain ⟨a, b⟩ := kv
    by_cases ha : a = k
    · subst ha
      simp [setKey, lookup, h2]
    · simp [setKey, lookup, ha, ih]

theorem finish_not_in_body (lines : List String) :
    WEvent.finish ∉ lines.filterMap fun l =>
      if l = "" then none else some (WEvent.log (stripStr l)) := by
  intro hmem
  rcases List.mem_filterMap.mp hmem with ⟨a, _, hfa⟩
  by_cases ha : a = "" <;> simp [ha] at hfa

theorem update_json_trace_stops (cfg : FConfig) (k : String) (v : JValue) :
    failureStops (update_json cfg k v).2.2 = true := by
  obtain ⟨file, wok⟩ := cfg
  rcases file with _ | d
  · rfl
  · cases d <;> cases wok <;> rfl

/-! ## Claim theorems -/

/-- C1: every invocation of `DockerWorker.run` emits the terminal
`finish_signal` exactly once, after all log lines, regardless of how the
subprocess behaves — normal exit with any code, an exception mid-stream, or
a failure to start. -/
theorem dockerWorkerRun_finish_once (cmd : String) (o : ProcOutcome) :
    (dockerWorkerRun cmd o).count WEvent.finish = 1 ∧
    (dockerWorkerRun cmd o).getLast? = some WEvent.finish := by
  cases o with
  | launchFail e => exact ⟨rfl, rfl⟩
  | streamed lines err =>
    have hb := finish_not_in_body lines
    cases err with
    | none =>
      constructor
      · rw [dockerWorkerRun]
        rw [List.count_append, List.count_cons]
        simp [List.count_eq_zero.mpr hb]
      · rw [dockerWorkerRun]
        exact List.getLast?_concat _
    | some e =>
      constructor
      · rw [dockerWorkerRun]
        rw [List.count_append, List.count_cons]
        simp [List.count_eq_zero.mpr hb]
      · rw [dockerWorkerRun]
        exact List.getLast?_concat _

/-- C2 counterexample: a config read failure during `toggle_dry` is not
surfaced to the user as a dialog: `update_json` reports failure, yet the
dialogs shown are exactly the single informational success dialog, identical
to those of a run whose config edit succeeds. -/
theorem toggle_dry_failure_not_surfaced :
    (update_json (FConfig.mk none true) "dry_run" (JValue.bool true)).2.1 = false ∧
    (toggle_dry (FConfig.mk none true) true Reply.yes).2.1 =
      [Dialog.mk DKind.info (infoSwitchText true)] ∧
    (toggle_dry (FConfig.mk none true) true Reply.yes).2.1 =
      (toggle_dry (FConfig.mk (some (JValue.obj [])) true) true Reply.yes).2.1 :=
  ⟨rfl, rfl, rfl⟩

/-- C2 amended: config read/write failures during a config edit are
recovered with no rollback (no file operation follows a failed one);
`save_port` surfaces the failure as a critical dialog, while `toggle_dry`
ignores the result of `update_json` and always shows the same informational
dialog, so its failures are not surfaced. -/
theorem config_edit_failure_recovery (cfg : FConfig) (chk : Bool) (reply : Reply)
    (portText : String) :
    failureStops (toggle_dry cfg chk reply).2.2 = true ∧
    failureStops (save_port cfg portText).2.2 = true ∧
    ((save_port cfg portText).2.2.any opFailed = true →
      ∃ s, (save_port cfg portText).2.1 = [Dialog.mk DKind.critical s]) ∧
    (toggle_dry cfg chk reply).2.1 =
      (toggle_dry (FConfig.mk (some (JValue.obj [])) true) chk reply).2.1 ∧
    ((toggle_dry cfg chk reply).2.1.getLast?).map Dialog.kind = some DKind.info := by
  refine ⟨?_, ?_, ?_, ?_, ?_⟩
  · cases chk with
    | true => exact update_json_trace_stops cfg "dry_run" (JValue.bool true)
    | false =>
      cases reply with
      | no => exact update_json_trace_stops cfg "dry_run" (JValue.bool true)
      | yes => exact update_json_trace_stops cfg "dry_run" (JValue.bool false)
  · obtain ⟨file, wok⟩ := cfg
    cases hdig : pyIsDigitL (pyStrip portText.data) with
    | false =>
      simp only [save_port, hdig]
      rfl
    | true =>
      rcases file with _ | d
      · simp only [save_port, hdig]
        rfl
      · cases hu : save_port_update d (proxyStr portText) with
        | none =>
          simp only [save_port, hdig, hu]
          rfl
        | some d2 => cases wok <;> simp [save_port, hdig, hu, failureStops, opFailed]
  · obtain ⟨file, wok⟩ := cfg
    cases hdig : pyIsDigitL (pyStrip portText.data) with
    | false =>
      intro hany
      rw [save_port] at hany
      simp [hdig] at hany
    | true =>
      rcases file with _ | d
      · intro _
        exact ⟨"read error", by simp [save_port, hdig]⟩
      · cases hu : save_port_update d (proxyStr portText) with
        | none =>
          intro _
          exact ⟨"type error", by simp [save_port, hdig, hu]⟩
        | some d2 =>
          cases wok with
          | false =>
            intro _
            exact ⟨"write error", by simp [save_port, hdig, hu]⟩
          | true =>
            intro hany
            rw [save_port] at hany
            simp [hdig, hu, opFailed] at hany
  · cases chk <;> cases reply <;> rfl
  · cases chk <;> cases reply <;> rfl

/-- C2 witness: with an unreadable config file and a numeric port,
`save_port`'s trace contains a failed operation and its only dialog is
critical. -/
theorem config_edit_failure_recovery_witness :
    ∃ s, (save_port (FConfig.mk none true) "7890").2.1 =
      [Dialog.mk DKind.critical s] :=
  (config_edit_failure_recovery (FConfig.mk none true) true Reply.yes "7890").2.2.1 rfl

/-- C3: a token with no "/" separator gets the default quote suffix "/USDT"
appended exactly once when futures mode is off; in particular the full
normalizer maps "BTC" to "BTC/USDT". -/
theorem process_pairs_appends_default_quote (p : List Char)
    (h : p.contains '/' = false) :
    processTokenL false p = p ++ ("/USDT").data ∧
    process_pairs false "BTC" = "BTC/USDT" := by
  have h' : '/' ∉ p := by simpa using h
  exact ⟨by simp [processTokenL, h'], by decide⟩

/-- C3 witness: instance at the token "BTC". -/
theorem process_pairs_appends_default_quote_witness :
    ("BTC").data.contains '/' = false ∧
    (processTokenL false ("BTC").data = ("BTC").data ++ ("/USDT").data ∧
     process_pairs false "BTC" = "BTC/USDT") :=
  ⟨by decide, process_pairs_appends_default_quote ("BTC").data (by decide)⟩

/-- C4: the normalizer is idempotent: a token already containing "/" is
unchanged with futures off; with futures on the ":USDT" suffix is appended
only when no ":" is present; and re-normalizing `process_pairs` output
returns it unchanged for every input and flag value. -/
theorem process_pairs_idempotent (fut : Bool) (p : List Char) (raw : String)
    (h : '/' ∈ p) :
    processTokenL false p = p ∧
    processTokenL true p = (if ':' ∈ p then p else p ++ (":USDT").data) ∧
    process_pairs fut (process_pairs fut raw) = process_pairs fut raw := by
  refine ⟨by simp [processTokenL, h], ?_, process_pairs_idem fut raw⟩
  by_cases hco : ':' ∈ p <;> simp [processTokenL, h, hco]

/-- C4 witness: instance at the token "BTC/USDT" and the raw list
"BTC ETH/BTC" in futures mode. -/
theorem process_pairs_idempotent_witness :
    '/' ∈ ("BTC/USDT").data ∧
    (processTokenL false ("BTC/USDT").data = ("BTC/USDT").data ∧
     processTokenL true ("BTC/USDT").data =
       (if ':' ∈ ("BTC/USDT").data then ("BTC/USDT").data
        else ("BTC/USDT").data ++ (":USDT").data) ∧
     process_pairs true (process_pairs true "BTC ETH/BTC") =
       process_pairs true "BTC ETH/BTC") :=
  ⟨by decide, process_pairs_idempotent true ("BTC/USDT").data "BTC ETH/BTC" (by decide)⟩

/-- C5: normalizing the empty string yields the empty string, with no
suffix appended, for either value of the futures flag. -/
theorem process_pairs_empty (fut : Bool) : process_pairs fut "" = "" := rfl

/-- C6: after `update_json` sets `dry_run` to `False` on a config file whose
content is a JSON object, reading the file back yields an object in which
`dry_run` is `False` and every other top-level key maps to its previous
value. -/
theorem update_json_roundtrip (kvs : List (String × JValue)) :
    ∃ kvs',
      (update_json (FConfig.mk (some (JValue.obj kvs)) true) "dry_run"
        (JValue.bool false)).1.file = some (JValue.obj kvs') ∧
      lookup kvs' "dry_run" = some (JValue.bool false) ∧
      ∀ k, k ≠ "dry_run" → lookup kvs' k = lookup kvs k :=
  ⟨setKey kvs "dry_run" (JValue.bool false), rfl,
    lookup_setKey_self kvs "dry_run" (JValue.bool false),
    fun k hk => lookup_setKey_ne kvs "dry_run" k (JValue.bool false) hk⟩

/-- C6 witness: instance at a two-key config object. -/
theorem update_json_roundtrip_witness :
    ∃ kvs',
      (update_json (FConfig.mk (some (JValue.obj
          [("max_open_trades", JValue.num 3), ("dry_run", JValue.bool true)])) true)
        "dry_run" (JValue.bool false)).1.file = some (JValue.obj kvs') ∧
      lookup kvs' "dry_run" = some (JValue.bool false) ∧
      ∀ k, k ≠ "dry_run" → lookup kvs' k =
        lookup [("max_open_trades", JValue.num 3), ("dry_run", JValue.bool true)] k :=
  update_json_roundtrip [("max_open_trades", JValue.num 3), ("dry_run", JValue.bool true)]

/-- C7: when the stripped port text is not entirely digits, `save_port`
returns immediately: the config file is neither read nor written, no dialog
is shown, and the state is unchanged. -/
theorem save_port_nondigit_noop (cfg : FConfig) (portText : String)
    (h : pyIsDigitL (pyStrip portText.data) = false) :
    save_port cfg portText = (cfg, [], []) := by
  simp [save_port, h]

/-- C7 witness: instance at the port text " 80a ". -/
theorem save_port_nondigit_noop_witness :
    pyIsDigitL (pyStrip (" 80a ").data) = false ∧
    save_port (FConfig.mk (some (JValue.obj [])) true) " 80a " =
      (FConfig.mk (some (JValue.obj [])) true, [], []) :=
  ⟨by decide, save_port_nondigit_noop (FConfig.mk (some (JValue.obj [])) true)
    " 80a " (by decide)⟩

/-- C8: every iteration of `DockerMonitor.run` emits exactly one status
signal, and an iteration whose query raises emits `False` ("not running")
instead of propagating the error. -/
theorem dockerMonitorRun_swallows_errors (qs : List (Option String)) :
    (dockerMonitorRun qs).length = qs.length ∧
    ∀ i : Nat, qs[i]? = some none → (dockerMonitorRun qs)[i]? = some false := by
  constructor
  · simp [dockerMonitorRun]
  · intro i h
    simp [dockerMonitorRun, List.getElem?_map, h, dockerMonitorStep]

/-- C8 witness: a failing first iteration followed by a successful one. -/
theorem dockerMonitorRun_swallows_errors_witness :
    (dockerMonitorRun [none, some " "])[0]? = some false :=
  (dockerMonitorRun_swallows_errors [none, some " "]).2 0 rfl

/-- C9: a token containing ":" but no "/" gets "/USDT" appended after the
existing colon, and in futures mode no ":USDT" settlement suffix is added
because the pre-existing colon satisfies the ":" check; in particular
"BTC:USDT" normalizes to "BTC:USDT/USDT" in futures mode. -/
theorem process_pairs_colon_before_slash (fut : Bool) (p : List Char)
    (hc : p.contains ':' = true) (hs : p.contains '/' = false) :
    processTokenL fut p = p ++ ("/USDT").data ∧
    process_pairs true "BTC:USDT" = "BTC:USDT/USDT" := by
  have h1 : (p ++ ("/USDT").data).contains ':' = true := by
    rw [contains_append, hc]
    rfl
  have h2 : ':' ∈ p ++ ("/USDT").data := by simpa using h1
  have h3 : '/' ∉ p := by simpa using hs
  exact ⟨by simp [processTokenL, h3, h2], by decide⟩

/-- C9 witness: instance at the token "BTC:USDT" in futures mode. -/
theorem process_pairs_colon_before_slash_witness :
    ("BTC:USDT").data.contains ':' = true ∧
    ("BTC:USDT").data.contains '/' = false ∧
    (processTokenL true ("BTC:USDT").data = ("BTC:USDT").data ++ ("/USDT").data ∧
     process_pairs true "BTC:USDT" = "BTC:USDT/USDT") :=
  ⟨by decide, by decide,
    process_pairs_colon_before_slash true ("BTC:USDT").data (by decide) (by decide)⟩

/-- C10: for a valid numeric port and an object-shaped config, `save_port`
writes a file in which `exchange.ccxt_config.proxies` is replaced wholesale
by the two-key object mapping "http" and "https" to the same proxy URL
(discarding any previous proxies content), the intermediate objects
`exchange` and `ccxt_config` are created only when absent, and all other
keys — top-level, inside `exchange`, and inside `ccxt_config` — keep their
previous values. -/
theorem save_port_replaces_proxies (kvs : List (String × JValue)) (portText : String)
    (d' : JValue)
    (hdig : pyIsDigitL (pyStrip portText.data) = true)
    (hup : save_port_update (JValue.obj kvs) (proxyStr portText) = some d') :
    (save_port (FConfig.mk (some (JValue.obj kvs)) true) portText).1.file = some d' ∧
    getPath d' ["exchange", "ccxt_config", "proxies"] =
      some (JValue.obj [("http", JValue.str (proxyStr portText)),
                        ("https", JValue.str (proxyStr portText))]) ∧
    (∃ kvs', d' = JValue.obj kvs' ∧
      ∀ k, k ≠ "exchange" → lookup kvs' k = lookup kvs k) ∧
    (∀ ekvs, lookup kvs "exchange" = some (JValue.obj ekvs) →
      ∀ k, k ≠ "ccxt_config" → getPath d' ["exchange", k] = lookup ekvs k) ∧
    (∀ ekvs ckvs, lookup kvs "exchange" = some (JValue.obj ekvs) →
      lookup ekvs "ccxt_config" = some (JValue.obj ckvs) →
      ∀ k, k ≠ "proxies" → getPath d' ["exchange", "ccxt_config", k] = lookup ckvs k) ∧
    (lookup kvs "exchange" = none →
      getPath d' ["exchange"] = some (JValue.obj [("ccxt_config",
        JValue.obj [("enableRateLimit", JValue.bool true),
          ("proxies", JValue.obj [("http", JValue.str (proxyStr portText)),
            ("https", JValue.str (proxyStr portText))])])])) ∧
    (∀ ekvs, lookup kvs "exchange" = some (JValue.obj ekvs) →
      lookup ekvs "ccxt_config" = none →
      getPath d' ["exchange", "ccxt_config"] =
        some (JValue.obj [("enableRateLimit", JValue.bool true),
          ("proxies", JValue.obj [("http", JValue.str (proxyStr portText)),
            ("https", JValue.str (proxyStr portText))])])) := by
  refine ⟨by simp [save_port, hdig, hup], ?_⟩
  cases hE : lookup kvs "exchange" with
  | none =>
    have hval : save_port_update (JValue.obj kvs) (proxyStr portText)
        = some (JValue.obj (setKey kvs "exchange" (JValue.obj [("ccxt_config",
            JValue.obj [("enableRateLimit", JValue.bool true),
              ("proxies", JValue.obj [("http", JValue.str (proxyStr portText)),
                ("https", JValue.str (proxyStr portText))])])]))) := by
      simp [save_port_update, hE, lookup, setKey]
    rw [hval] at hup
    obtain rfl := Option.some.inj hup
    refine ⟨?_, ⟨_, rfl, fun k hk => lookup_setKey_ne kvs "exchange" k _ hk⟩,
      ?_, ?_, ?_, ?_⟩
    · simp [getPath, lookup_setKey_self, lookup]
    · intro ekvs h
      exact absurd h (by simp)
    · intro ekvs ckvs h
      exact absurd h (by simp)
    · intro _
      simp [getPath, lookup_setKey_self]
    · intro ekvs h
      exact absurd h (by simp)
  | some e =>
    cases e with
    | obj ekvs =>
      cases hC : lookup ekvs "ccxt_config" with
      | none =>
        have hval : save_port_update (JValue.obj kvs) (proxyStr portText)
            = some (JValue.obj (setKey kvs "exchange" (JValue.obj (setKey ekvs "ccxt_config"
                (JValue.obj [("enableRateLimit", JValue.bool true),
                  ("proxies", JValue.obj [("http", JValue.str (proxyStr portText)),
                    ("https", JValue.str (proxyStr portText))])]))))) := by
          simp [save_port_update, hE, hC, lookup, setKey]
        rw [hval] at hup
        obtain rfl := Option.some.inj hup
        refine ⟨?_, ⟨_, rfl, fun k hk => lookup_setKey_ne kvs "exchange" k _ hk⟩,
          ?_, ?_, ?_, ?_⟩
        · simp [getPath, lookup_setKey_self, lookup]
        · intro ekvs0 h k hk
          obtain rfl : ekvs = ekvs0 := by simpa using h
          simp only [getPath, lookup_setKey_self]
          rw [lookup_setKey_ne ekvs "ccxt_config" k _ hk]
          cases lookup ekvs k <;> rfl
        · intro ekvs0 ckvs0 h hc
          obtain rfl : ekvs = ekvs0 := by simpa using h
          rw [hC] at hc
          exact absurd hc (by simp)
        · intro h
          exact absurd h (by simp)
        · intro ekvs0 h _
          obtain rfl : ekvs = ekvs0 := by simpa using h
          simp [getPath, lookup_setKey_self, lookup]
      | some c =>
        cases c with
        | obj ckvs =>
          have hval : save_port_update (JValue.obj kvs) (proxyStr portText)
              = some (JValue.obj (setKey kvs "exchange" (JValue.obj (setKey ekvs "ccxt_config"
                  (JValue.obj (setKey ckvs "proxies"
                    (JValue.obj [("http", JValue.str (proxyStr portText)),
                      ("https", JValue.str (proxyStr portText))]))))))) := by
            simp [save_port_update, hE, hC, lookup, setKey]
          rw [hval] at hup
          obtain rfl := Option.some.inj hup
          refine ⟨?_, ⟨_, rfl, fun k hk => lookup_setKey_ne kvs "exchange" k _ hk⟩,
            ?_, ?_, ?_, ?_⟩
          · simp [getPath, lookup_setKey_self, lookup]
          · intro ekvs0 h k hk
            obtain rfl : ekvs = ekvs0 := by simpa using h
            simp only [getPath, lookup_setKey_self]
            rw [lookup_setKey_ne ekvs "ccxt_config" k _ hk]
            cases lookup ekvs k <;> rfl
          · intro ekvs0 ckvs0 h hc k hk
            obtain rfl : ekvs = ekvs0 := by simpa using h
            rw [hC] at hc
            obtain rfl : ckvs = ckvs0 := by simpa using hc
            simp only [getPath, lookup_setKey_self]
            rw [lookup_setKey_ne ckvs "proxies" k _ hk]
            cases lookup ckvs k <;> rfl
          · intro h
            exact absurd h (by simp)
          · intro ekvs0 h hc
            obtain rfl : ekvs = ekvs0 := by simpa using h
            rw [hC] at hc
            exact absurd hc (by simp)
        | null => simp [save_port_update, hE, hC] at hup
        | bool b => simp [save_port_update, hE, hC] at hup
        | num n => simp [save_port_update, hE, hC] at hup
        | str s => simp [save_port_update, hE, hC] at hup
        | arr xs => simp [save_port_update, hE, hC] at hup
    | null => simp [save_port_update, hE] at hup
    | bool b => simp [save_port_update, hE] at hup
    | num n => simp [save_port_update, hE] at hup
    | str s => simp [save_port_update, hE] at hup
    | arr xs => simp [save_port_update, hE] at hup

/-- C10 witness: instance at a one-key config with no `exchange` object and
port "7890". -/
theorem save_port_replaces_proxies_witness :
    getPath (JValue.obj [("dry_run", JValue.bool true),
        ("exchange", JValue.obj [("ccxt_config", JValue.obj
          [("enableRateLimit", JValue.bool true),
           ("proxies", JValue.obj [("http", JValue.str (proxyStr "7890")),
             ("https", JValue.str (proxyStr "7890"))])])])])
      ["exchange", "ccxt_config", "proxies"] =
      some (JValue.obj [("http", JValue.str (proxyStr "7890")),
        ("https", JValue.str (proxyStr "7890"))]) :=
  (save_port_replaces_proxies [("dry_run", JValue.bool true)] "7890" _ rfl rfl).2.1
